import Mathlib

/-!
Shallow embedding of the ESP32 I2S square-wave MIDI synthesizer
(`Synthesizer.cpp` / `Synthesizer.h`) and of the MIDI event scheduler
(`MidiPlayer` implementation).

Modelling conventions:
* Machine integers (`int`, `int16_t`, `uint16_t`, `int32_t`,
  `unsigned long`) are modelled as `ℤ` or `ℕ`; every arithmetic path of
  the embedded code keeps its values far inside the machine ranges, and
  where a narrowing cast occurs in the source (`(uint16_t)roundf(...)`)
  the reduction modulo 2^16 is written explicitly.
* `float` arithmetic is modelled exactly: rational-valued computations
  (`velocityToAmplitude`, the mixer's average, the tempo factors) over
  `ℚ`, and the transcendental `powf` in `midiNoteToFrequency` over `ℝ`.
  `roundf` (round half away from zero) is `roundQ` / `roundR`.
* The FreeRTOS mutex protects the voice table; under the lock the code
  is sequential, so the critical sections are embedded as pure
  functions on the voice list.
* `PROGMEM` byte reads become lookups in a `List ℕ` of bytes.
-/

/-- `SYNTH_MAX_VOICES` from `Synthesizer.h`. -/
def SYNTH_MAX_VOICES : ℕ := 8

/-- `SYNTH_SAMPLE_RATE` from `Synthesizer.h`. -/
def SYNTH_SAMPLE_RATE : ℕ := 44100

/-- `SYNTH_MAX_NOTE_AMPLITUDE` from `Synthesizer.h`. -/
def SYNTH_MAX_NOTE_AMPLITUDE : ℤ := 16000

/-- `SYNTH_MAX_OUTPUT_AMPLITUDE` from `Synthesizer.h`. -/
def SYNTH_MAX_OUTPUT_AMPLITUDE : ℤ := 32767

/-- `SYNTH_MIN_OUTPUT_AMPLITUDE` from `Synthesizer.h`. -/
def SYNTH_MIN_OUTPUT_AMPLITUDE : ℤ := -32768

/-- `SYNTH_SILENCE_AMPLITUDE` from `Synthesizer.h`. -/
def SYNTH_SILENCE_AMPLITUDE : ℤ := 0

/-- The `VoiceState` struct from `Synthesizer.h`, field for field. -/
structure VoiceState where
  isActive : Bool
  midiNoteNumber : ℤ
  frequency : ℝ
  targetAmplitude : ℤ
  currentOutput : ℤ
  wavelength : ℕ
  timeAtLevelRemaining : ℕ

/-- The default-initialized `VoiceState` (all fields zero / false). -/
def initVoice : VoiceState :=
  { isActive := false, midiNoteNumber := 0, frequency := 0,
    targetAmplitude := 0, currentOutput := 0, wavelength := 0,
    timeAtLevelRemaining := 0 }

/-- The voice table right after `Synthesizer::init` (every slot inactive). -/
def initPool : List VoiceState := List.replicate SYNTH_MAX_VOICES initVoice

/-- In-place update of slot `i` of the voice table (`voices[i] = ...`). -/
def modifyVoice : List VoiceState → ℕ → (VoiceState → VoiceState) → List VoiceState
  | [], _, _ => []
  | v :: vs, 0, f => f v :: vs
  | v :: vs, n + 1, f => v :: modifyVoice vs n f

/-- Linear scan returning the index of the first element satisfying `p`,
as in the `for` loops of `findFreeVoice_unsafe` /
`findVoicePlayingNote_unsafe` (`-1` becomes `none`). -/
def findFirstIdx (p : VoiceState → Bool) : List VoiceState → Option ℕ
  | [] => none
  | v :: vs => if p v then some 0 else (findFirstIdx p vs).map (· + 1)

/-- The loop condition of `findVoicePlayingNote_unsafe`:
`voices[i].isActive && voices[i].midiNoteNumber == midiNoteNumber`. -/
def playsNote (n : ℤ) (v : VoiceState) : Bool :=
  v.isActive && v.midiNoteNumber == n

/-- `Synthesizer::findFreeVoice_unsafe`. -/
def findFreeVoice (vs : List VoiceState) : Option ℕ :=
  findFirstIdx (fun v => !v.isActive) vs

/-- `Synthesizer::findVoicePlayingNote_unsafe`. -/
def findVoicePlayingNote (vs : List VoiceState) (n : ℤ) : Option ℕ :=
  findFirstIdx (playsNote n) vs

/-- Number of active voices playing note `n`. -/
def countActiveForNote (vs : List VoiceState) (n : ℤ) : ℕ :=
  vs.countP (playsNote n)

/-- `roundf` (round half away from zero) on exact rationals. -/
def roundQ (x : ℚ) : ℤ :=
  if x < 0 then -(Int.floor (-x + 1/2)) else Int.floor (x + 1/2)

/-- `roundf` (round half away from zero) on the reals. -/
noncomputable def roundR (x : ℝ) : ℤ :=
  if x < 0 then -(Int.floor (-x + 1/2)) else Int.floor (x + 1/2)

/-- `Synthesizer::velocityToAmplitude`: clamp the velocity to `[0,127]`,
scale linearly to `SYNTH_MAX_NOTE_AMPLITUDE`, and round. -/
def velocityToAmplitude (velocity : ℤ) : ℤ :=
  let v := max 0 (min velocity 127)
  roundQ ((v : ℚ) / 127 * (SYNTH_MAX_NOTE_AMPLITUDE : ℚ))

/-- `Synthesizer::midiNoteToFrequency`:
`midiNote <= 0` yields `0`, otherwise `440 * 2^((midiNote-69)/12)`. -/
noncomputable def midiNoteToFrequency (midiNote : ℤ) : ℝ :=
  if midiNote ≤ 0 then 0
  else 440 * (2 : ℝ) ^ (((midiNote : ℝ) - 69) / 12)

/-- `Synthesizer::calculate_wavelength`: samples per half cycle,
rounded, cast to `uint16_t`, floored to a minimum of `1`. -/
noncomputable def calculate_wavelength (frequency : ℝ) : ℕ :=
  if frequency ≤ 0 then 0
  else
    let wavelength := (roundR ((SYNTH_SAMPLE_RATE : ℝ) / (frequency * 2))).toNat % 2 ^ 16
    if wavelength < 1 then 1 else wavelength

/-- First phase of `Synthesizer::startNote` (lines 101-104): if a voice
is already playing the note, deactivate it. -/
def deactivateExisting (noteNumber : ℤ) (vs : List VoiceState) : List VoiceState :=
  match findVoicePlayingNote vs noteNumber with
  | some i => modifyVoice vs i (fun v => { v with isActive := false })
  | none => vs

/-- Second phase of `Synthesizer::startNote` (lines 106-126): claim the
first free slot, fill in the note parameters, and either arm the
oscillator (valid wavelength and amplitude) or deactivate the slot
again. `currentOutput` and `timeAtLevelRemaining` are written only on
the valid path, exactly as in the source. -/
noncomputable def allocateVoice (noteNumber velocity : ℤ) (vs : List VoiceState) :
    List VoiceState :=
  match findFreeVoice vs with
  | none => vs
  | some j =>
    if 0 < calculate_wavelength (midiNoteToFrequency noteNumber) ∧
        velocityToAmplitude velocity ≠ 0 then
      modifyVoice vs j (fun v =>
        { v with
          isActive := true
          midiNoteNumber := noteNumber
          frequency := midiNoteToFrequency noteNumber
          targetAmplitude := velocityToAmplitude velocity
          wavelength := calculate_wavelength (midiNoteToFrequency noteNumber)
          currentOutput := velocityToAmplitude velocity
          timeAtLevelRemaining := calculate_wavelength (midiNoteToFrequency noteNumber) })
    else
      modifyVoice vs j (fun v =>
        { v with
          isActive := false
          midiNoteNumber := noteNumber
          frequency := midiNoteToFrequency noteNumber
          targetAmplitude := velocityToAmplitude velocity
          wavelength := calculate_wavelength (midiNoteToFrequency noteNumber) })

/-- `Synthesizer::startNote` (the body guarded by the voices mutex). -/
noncomputable def startNote (noteNumber velocity : ℤ) (vs : List VoiceState) :
    List VoiceState :=
  allocateVoice noteNumber velocity (deactivateExisting noteNumber vs)

/-- `Synthesizer::stopNote` (the body guarded by the voices mutex):
deactivate the voice playing the note and zero its output. -/
def stopNote (noteNumber : ℤ) (vs : List VoiceState) : List VoiceState :=
  match findVoicePlayingNote vs noteNumber with
  | some i => modifyVoice vs i (fun v => { v with isActive := false, currentOutput := 0 })
  | none => vs

/-- The per-voice square-wave advance from `audioTaskRunner`
(lines 211-219): first the toggle `if`, then the separate decrement
`if` — two sequential conditionals, not an `if`/`else`. -/
def voiceRender (v : VoiceState) : VoiceState :=
  let v1 :=
    if v.timeAtLevelRemaining = 0 then
      { v with
        currentOutput :=
          if v.currentOutput = v.targetAmplitude then -v.targetAmplitude
          else v.targetAmplitude
        timeAtLevelRemaining := v.wavelength }
    else v
  if 0 < v1.timeAtLevelRemaining then
    { v1 with timeAtLevelRemaining := v1.timeAtLevelRemaining - 1 }
  else v1

/-- The mutex-guarded voice sweep of one `audioTaskRunner` iteration
(lines 204-225): advance every active voice, accumulate its (updated)
`currentOutput`, and count the active voices. Returns the updated
table, the running sum and the active-voice count. -/
def renderPass : List VoiceState → List VoiceState × ℤ × ℕ
  | [] => ([], 0, 0)
  | v :: vs =>
    let rest := renderPass vs
    if v.isActive then
      let updated := voiceRender v
      (updated :: rest.1, updated.currentOutput + rest.2.1, rest.2.2 + 1)
    else
      (v :: rest.1, rest.2.1, rest.2.2)

/-- The mix / scale / clamp stage of `audioTaskRunner` (lines 227-238):
average the sum over the active-voice count, hard-clamp to the
`int16_t` output range, round; silence when no voice is active. -/
def mixSample (summedSample : ℤ) (activeVoiceCount : ℕ) : ℤ :=
  if 0 < activeVoiceCount then
    let mixed : ℚ := (summedSample : ℚ) / (activeVoiceCount : ℚ)
    if (SYNTH_MAX_OUTPUT_AMPLITUDE : ℚ) < mixed then SYNTH_MAX_OUTPUT_AMPLITUDE
    else if mixed < (SYNTH_MIN_OUTPUT_AMPLITUDE : ℚ) then SYNTH_MIN_OUTPUT_AMPLITUDE
    else roundQ mixed
  else SYNTH_SILENCE_AMPLITUDE

/-- One full iteration of the audio render loop: the updated voice
table and the emitted sample. -/
def renderStep (vs : List VoiceState) : List VoiceState × ℤ :=
  let pass := renderPass vs
  (pass.1, mixSample pass.2.1 pass.2.2)

/-- Note on / note off requests arriving at the synthesizer, used to
describe arbitrary control-path histories. -/
inductive SynthOp where
  | startOp (noteNumber velocity : ℤ)
  | stopOp (noteNumber : ℤ)

/-- Apply one control request to the voice table. -/
noncomputable def applySynthOp (op : SynthOp) (vs : List VoiceState) : List VoiceState :=
  match op with
  | .startOp n v => startNote n v vs
  | .stopOp n => stopNote n vs

/-- Apply a sequence of control requests, oldest first. -/
noncomputable def applyOps (ops : List SynthOp) (vs : List VoiceState) : List VoiceState :=
  ops.foldl (fun s op => applySynthOp op s) vs

/-! ## MidiPlayer -/

/-- `BYTES_PER_EVENT` from `MidiPlayer.h`. -/
def BYTES_PER_EVENT : ℕ := 6

/-- `TICKS_PER_QUARTER_NOTE` from `MidiPlayer.h`. -/
def TICKS_PER_QUARTER_NOTE : ℕ := 96

/-- The `SongInfo` record read from PROGMEM by `loadSong`: event-data
pointer (nullable), event count, tempo. The data region is a byte
list. -/
structure SongInfo where
  midi_data_ptr : Option (List ℕ)
  event_count : ℕ
  bpm : ℚ
deriving DecidableEq

/-- The `MidiPlayer` member state: loaded-song fields and playback
fields, as declared in `MidiPlayer.h`. -/
structure MidiPlayerState where
  current_song_data_ptr : Option (List ℕ)
  current_event_count : ℕ
  current_bpm : ℚ
  is_playing : Bool
  current_event_index : ℕ
  next_event_time_ms : ℕ
  millis_per_tick : ℚ
deriving DecidableEq

/-- `pgm_read_byte_near`: one byte of the flash-resident data region. -/
def pgm_read_byte (data : List ℕ) (addr : ℕ) : ℕ :=
  data.getD addr 0 % 256

/-- `MidiPlayer::pgm_read_uint16_big_endian`: high byte first. -/
def pgm_read_uint16_big_endian (data : List ℕ) (addr : ℕ) : ℕ :=
  pgm_read_byte data addr * 256 + pgm_read_byte data (addr + 1)

/-- `MidiPlayer::calculateTimingFactors`: non-positive tempo is
replaced by 120 BPM, then
`millis_per_tick = (60000000 / bpm / 1000) / TICKS_PER_QUARTER_NOTE`. -/
def calculateTimingFactors (bpm : ℚ) : ℚ :=
  let b := if bpm ≤ 0 then 120 else bpm
  let microseconds_per_quarter_note : ℚ := 60000000 / b
  if 0 < TICKS_PER_QUARTER_NOTE then
    (microseconds_per_quarter_note / 1000) / (TICKS_PER_QUARTER_NOTE : ℚ)
  else 0

/-- `MidiPlayer::convertTicksToMillis`: `roundf(ticks * millis_per_tick)`
cast to `unsigned long`. -/
def convertTicksToMillis (millis_per_tick : ℚ) (ticks : ℕ) : ℕ :=
  (roundQ ((ticks : ℚ) * millis_per_tick)).toNat

/-- `MidiPlayer::loadSong`: a null song reference fails with no writes;
otherwise the three metadata fields are copied in, then a null data
pointer or a zero event count fails after forcing
`current_song_data_ptr = nullptr` and `current_event_count = 0`; on
success the timing factor is computed and the playback state reset. -/
def loadSong (song : Option SongInfo) (st : MidiPlayerState) :
    Bool × MidiPlayerState :=
  match song with
  | none => (false, st)
  | some info =>
    let st1 := { st with
      current_song_data_ptr := info.midi_data_ptr
      current_event_count := info.event_count
      current_bpm := info.bpm }
    if st1.current_song_data_ptr = none ∨ st1.current_event_count = 0 then
      (false, { st1 with current_song_data_ptr := none, current_event_count := 0 })
    else
      (true, { st1 with
        millis_per_tick := calculateTimingFactors st1.current_bpm
        is_playing := false
        current_event_index := 0
        next_event_time_ms := 0 })

/-- The event-dispatch block of `MidiPlayer::processCurrentEvent`
(lines 158-163): type 1 is note-on (velocity 0 meaning note-off),
type 0 is note-off, anything else is ignored. -/
noncomputable def executeMidiEvent (event_type note_number velocity : ℕ)
    (pool : List VoiceState) : List VoiceState :=
  if event_type = 1 then
    if 0 < velocity then startNote (note_number : ℤ) (velocity : ℤ) pool
    else stopNote (note_number : ℤ) pool
  else if event_type = 0 then stopNote (note_number : ℤ) pool
  else pool

/-- `MidiPlayer::processCurrentEvent`: read the type, note and velocity
bytes of the event at the current index and dispatch them to the
synthesizer's voice table. -/
noncomputable def processCurrentEvent (st : MidiPlayerState)
    (pool : List VoiceState) : List VoiceState :=
  let d := st.current_song_data_ptr.getD []
  let base := st.current_event_index * BYTES_PER_EVENT
  executeMidiEvent (pgm_read_byte d (base + 2)) (pgm_read_byte d (base + 3))
    (pgm_read_byte d (base + 4)) pool

/-- `MidiPlayer::scheduleNextEvent`: if another event remains, its
delta-time sets the new deadline relative to the time the current
event was processed. -/
def scheduleNextEvent (st : MidiPlayerState)
    (current_processing_time_ms : ℕ) : MidiPlayerState :=
  if st.current_event_index < st.current_event_count then
    let d := st.current_song_data_ptr.getD []
    let next_delta_ticks :=
      pgm_read_uint16_big_endian d (st.current_event_index * BYTES_PER_EVENT)
    { st with next_event_time_ms :=
        current_processing_time_ms + convertTicksToMillis st.millis_per_tick next_delta_ticks }
  else st

/-- `MidiPlayer::update`, with `millis()` passed in as `now`: returns
the `bool` result together with the updated player state and voice
table. -/
noncomputable def update (now : ℕ) (st : MidiPlayerState)
    (pool : List VoiceState) : Bool × MidiPlayerState × List VoiceState :=
  if st.is_playing = false then (false, st, pool)
  else if st.next_event_time_ms ≤ now then
    if st.current_event_count ≤ st.current_event_index then
      (false, { st with is_playing := false }, pool)
    else
      let pool2 := processCurrentEvent st pool
      let st2 :=
        scheduleNextEvent
          { st with current_event_index := st.current_event_index + 1 } now
      (st2.is_playing, st2, pool2)
  else (st.is_playing, st, pool)

/-! ## Helper lemmas about the voice-table scans -/

theorem modifyVoice_length (vs : List VoiceState) (i : ℕ) (f : VoiceState → VoiceState) :
    (modifyVoice vs i f).length = vs.length := by
  induction vs generalizing i with
  | nil => rfl
  | cons v vs ih =>
    cases i with
    | zero => rfl
    | succ j => simpa [modifyVoice] using ih j

theorem modifyVoice_getD_self (vs : List VoiceState) (i : ℕ) (f : VoiceState → VoiceState)
    (h : i < vs.length) :
    (modifyVoice vs i f).getD i initVoice = f (vs.getD i initVoice) := by
  induction vs generalizing i with
  | nil => simp at h
  | cons v vs ih =>
    cases i with
    | zero => rfl
    | succ j =>
      simp only [modifyVoice, List.getD_cons_succ]
      exact ih j (by simpa using h)

theorem findFirstIdx_eq_none_iff (p : VoiceState → Bool) (vs : List VoiceState) :
    findFirstIdx p vs = none ↔ ∀ v ∈ vs, p v = false := by
  induction vs with
  | nil => simp [findFirstIdx]
  | cons v vs ih =>
    by_cases hp : p v
    · simp [findFirstIdx, hp]
    · simp [findFirstIdx, hp, ih]

theorem findFirstIdx_some_spec (p : VoiceState → Bool) :
    ∀ (vs : List VoiceState) (i : ℕ), findFirstIdx p vs = some i →
      i < vs.length ∧ p (vs.getD i initVoice) = true := by
  intro vs
  induction vs with
  | nil => intro i h; simp [findFirstIdx] at h
  | cons v vs ih =>
    intro i h
    by_cases hp : p v
    · simp [findFirstIdx, hp] at h
      subst h
      simpa using hp
    · rw [findFirstIdx, if_neg (by simpa using hp)] at h
      cases hfi : findFirstIdx p vs with
      | none => rw [hfi] at h; simp at h
      | some j =>
        rw [hfi] at h
        simp only [Option.map_some', Option.some_inj] at h
        subst h
        obtain ⟨hlt, hsat⟩ := ih j hfi
        exact ⟨by simpa using hlt, by simpa using hsat⟩

theorem countP_modifyVoice (p : VoiceState → Bool) (vs : List VoiceState) (i : ℕ)
    (f : VoiceState → VoiceState) (h : i < vs.length) :
    (modifyVoice vs i f).countP p + (if p (vs.getD i initVoice) then 1 else 0)
      = vs.countP p + (if p (f (vs.getD i initVoice)) then 1 else 0) := by
  induction vs generalizing i with
  | nil => simp at h
  | cons v vs ih =>
    cases i with
    | zero =>
      simp only [modifyVoice, List.getD_cons_zero, List.countP_cons]
      omega
    | succ j =>
      simp only [modifyVoice, List.getD_cons_succ, List.countP_cons]
      have := ih j (by simpa using h)
      omega

theorem countP_eq_zero_of_findFirstIdx_none (p : VoiceState → Bool)
    (vs : List VoiceState) (h : findFirstIdx p vs = none) :
    vs.countP p = 0 := by
  rw [List.countP_eq_zero]
  intro v hv
  simpa using (findFirstIdx_eq_none_iff p vs).mp h v hv

theorem findFirstIdx_ne_none_of_sat (p : VoiceState → Bool) (vs : List VoiceState)
    (i : ℕ) (h : i < vs.length) (hsat : p (vs.getD i initVoice) = true) :
    findFirstIdx p vs ≠ none := by
  intro hnone
  have hall := (findFirstIdx_eq_none_iff p vs).mp hnone
  have hmem : vs.getD i initVoice ∈ vs := by
    rw [List.getD_eq_getElem vs initVoice h]
    exact List.getElem_mem h
  have := hall _ hmem
  rw [this] at hsat
  exact Bool.noConfusion hsat

/-! ## Counting lemmas for the pool operations -/

theorem playsNote_false_of_inactive {v : VoiceState} (h : v.isActive = false) (n : ℤ) :
    playsNote n v = false := by
  simp [playsNote, h]

theorem deactivateExisting_count_le (n m : ℤ) (vs : List VoiceState) :
    countActiveForNote (deactivateExisting n vs) m ≤ countActiveForNote vs m := by
  cases hfind : findVoicePlayingNote vs n with
  | none => simp [deactivateExisting, hfind]
  | some i =>
    obtain ⟨hlt, -⟩ := findFirstIdx_some_spec _ vs i hfind
    have hcm := countP_modifyVoice (playsNote m) vs i
      (fun v => { v with isActive := false }) hlt
    have hnew : playsNote m ((fun v => { v with isActive := false })
        (vs.getD i initVoice)) = false := by
      simp [playsNote]
    simp only [hnew, Bool.false_eq_true, if_false] at hcm
    simp only [deactivateExisting, hfind, countActiveForNote]
    omega

theorem deactivateExisting_count_self (n : ℤ) (vs : List VoiceState)
    (hle : countActiveForNote vs n ≤ 1) :
    countActiveForNote (deactivateExisting n vs) n = 0 := by
  cases hfind : findVoicePlayingNote vs n with
  | none =>
    simpa [deactivateExisting, hfind, countActiveForNote] using
      countP_eq_zero_of_findFirstIdx_none (playsNote n) vs hfind
  | some i =>
    obtain ⟨hlt, hsat⟩ := findFirstIdx_some_spec _ vs i hfind
    have hcm := countP_modifyVoice (playsNote n) vs i
      (fun v => { v with isActive := false }) hlt
    have hnew : playsNote n ((fun v => { v with isActive := false })
        (vs.getD i initVoice)) = false := by
      simp [playsNote]
    simp only [hnew, Bool.false_eq_true, if_false, hsat, if_true] at hcm
    simp only [deactivateExisting, hfind, countActiveForNote]
    simp only [countActiveForNote] at hle
    omega

theorem stopNote_count_le (n m : ℤ) (vs : List VoiceState) :
    countActiveForNote (stopNote n vs) m ≤ countActiveForNote vs m := by
  cases hfind : findVoicePlayingNote vs n with
  | none => simp [stopNote, hfind]
  | some i =>
    obtain ⟨hlt, -⟩ := findFirstIdx_some_spec _ vs i hfind
    have hcm := countP_modifyVoice (playsNote m) vs i
      (fun v => { v with isActive := false, currentOutput := 0 }) hlt
    have hnew : playsNote m ((fun v => { v with isActive := false, currentOutput := 0 })
        (vs.getD i initVoice)) = false := by
      simp [playsNote]
    simp only [hnew, Bool.false_eq_true, if_false] at hcm
    simp only [stopNote, hfind, countActiveForNote]
    omega

theorem stopNote_count_self (n : ℤ) (vs : List VoiceState)
    (hle : countActiveForNote vs n ≤ 1) :
    countActiveForNote (stopNote n vs) n = 0 := by
  cases hfind : findVoicePlayingNote vs n with
  | none =>
    simpa [stopNote, hfind, countActiveForNote] using
      countP_eq_zero_of_findFirstIdx_none (playsNote n) vs hfind
  | some i =>
    obtain ⟨hlt, hsat⟩ := findFirstIdx_some_spec _ vs i hfind
    have hcm := countP_modifyVoice (playsNote n) vs i
      (fun v => { v with isActive := false, currentOutput := 0 }) hlt
    have hnew : playsNote n ((fun v => { v with isActive := false, currentOutput := 0 })
        (vs.getD i initVoice)) = false := by
      simp [playsNote]
    simp only [hnew, Bool.false_eq_true, if_false, hsat, if_true] at hcm
    simp only [stopNote, hfind, countActiveForNote]
    simp only [countActiveForNote] at hle
    omega

theorem allocateVoice_count_ne (noteNumber velocity m : ℤ) (vs : List VoiceState)
    (hm : m ≠ noteNumber) :
    countActiveForNote (allocateVoice noteNumber velocity vs) m
      = countActiveForNote vs m := by
  cases hff : findFreeVoice vs with
  | none => simp [allocateVoice, hff]
  | some j =>
    obtain ⟨hlt, hsat⟩ := findFirstIdx_some_spec _ vs j hff
    have hold : playsNote m (vs.getD j initVoice) = false :=
      playsNote_false_of_inactive (by simpa using hsat) m
    simp only [allocateVoice, hff, countActiveForNote]
    split
    · have hcm := countP_modifyVoice (playsNote m) vs j
        (fun v => { v with
          isActive := true
          midiNoteNumber := noteNumber
          frequency := midiNoteToFrequency noteNumber
          targetAmplitude := velocityToAmplitude velocity
          wavelength := calculate_wavelength (midiNoteToFrequency noteNumber)
          currentOutput := velocityToAmplitude velocity
          timeAtLevelRemaining := calculate_wavelength (midiNoteToFrequency noteNumber) }) hlt
      have hnew : playsNote m { vs.getD j initVoice with
          isActive := true
          midiNoteNumber := noteNumber
          frequency := midiNoteToFrequency noteNumber
          targetAmplitude := velocityToAmplitude velocity
          wavelength := calculate_wavelength (midiNoteToFrequency noteNumber)
          currentOutput := velocityToAmplitude velocity
          timeAtLevelRemaining := calculate_wavelength (midiNoteToFrequency noteNumber) }
          = false := by
        simp only [playsNote]
        simp
        omega
      simp only [hold, hnew, Bool.false_eq_true, if_false] at hcm
      omega
    · have hcm := countP_modifyVoice (playsNote m) vs j
        (fun v => { v with
          isActive := false
          midiNoteNumber := noteNumber
          frequency := midiNoteToFrequency noteNumber
          targetAmplitude := velocityToAmplitude velocity
          wavelength := calculate_wavelength (midiNoteToFrequency noteNumber) }) hlt
      have hnew : playsNote m { vs.getD j initVoice with
          isActive := false
          midiNoteNumber := noteNumber
          frequency := midiNoteToFrequency noteNumber
          targetAmplitude := velocityToAmplitude velocity
          wavelength := calculate_wavelength (midiNoteToFrequency noteNumber) }
          = false := by
        simp [playsNote]
      simp only [hold, hnew, Bool.false_eq_true, if_false] at hcm
      omega

theorem allocateVoice_count_self_le (noteNumber velocity : ℤ) (vs : List VoiceState) :
    countActiveForNote (allocateVoice noteNumber velocity vs) noteNumber
      ≤ countActiveForNote vs noteNumber + 1 := by
  cases hff : findFreeVoice vs with
  | none => simp [allocateVoice, hff]
  | some j =>
    obtain ⟨hlt, hsat⟩ := findFirstIdx_some_spec _ vs j hff
    have hold : playsNote noteNumber (vs.getD j initVoice) = false :=
      playsNote_false_of_inactive (by simpa using hsat) noteNumber
    simp only [allocateVoice, hff, countActiveForNote]
    split
    · have hcm := countP_modifyVoice (playsNote noteNumber) vs j
        (fun v => { v with
          isActive := true
          midiNoteNumber := noteNumber
          frequency := midiNoteToFrequency noteNumber
          targetAmplitude := velocityToAmplitude velocity
          wavelength := calculate_wavelength (midiNoteToFrequency noteNumber)
          currentOutput := velocityToAmplitude velocity
          timeAtLevelRemaining := calculate_wavelength (midiNoteToFrequency noteNumber) }) hlt
      simp only [hold, Bool.false_eq_true, if_false] at hcm
      split at hcm <;> omega
    · have hcm := countP_modifyVoice (playsNote noteNumber) vs j
        (fun v => { v with
          isActive := false
          midiNoteNumber := noteNumber
          frequency := midiNoteToFrequency noteNumber
          targetAmplitude := velocityToAmplitude velocity
          wavelength := calculate_wavelength (midiNoteToFrequency noteNumber) }) hlt
      simp only [hold, Bool.false_eq_true, if_false] at hcm
      split at hcm <;> omega

theorem allocateVoice_count_self_eq (noteNumber velocity : ℤ) (vs : List VoiceState)
    (hfree : findFreeVoice vs ≠ none)
    (hwl : 0 < calculate_wavelength (midiNoteToFrequency noteNumber))
    (hamp : velocityToAmplitude velocity ≠ 0) :
    countActiveForNote (allocateVoice noteNumber velocity vs) noteNumber
      = countActiveForNote vs noteNumber + 1 := by
  cases hff : findFreeVoice vs with
  | none => exact absurd hff hfree
  | some j =>
    obtain ⟨hlt, hsat⟩ := findFirstIdx_some_spec _ vs j hff
    have hold : playsNote noteNumber (vs.getD j initVoice) = false :=
      playsNote_false_of_inactive (by simpa using hsat) noteNumber
    simp only [allocateVoice, hff, countActiveForNote, if_pos (And.intro hwl hamp)]
    have hcm := countP_modifyVoice (playsNote noteNumber) vs j
      (fun v => { v with
        isActive := true
        midiNoteNumber := noteNumber
        frequency := midiNoteToFrequency noteNumber
        targetAmplitude := velocityToAmplitude velocity
        wavelength := calculate_wavelength (midiNoteToFrequency noteNumber)
        currentOutput := velocityToAmplitude velocity
        timeAtLevelRemaining := calculate_wavelength (midiNoteToFrequency noteNumber) }) hlt
    have hnew : playsNote noteNumber { vs.getD j initVoice with
        isActive := true
        midiNoteNumber := noteNumber
        frequency := midiNoteToFrequency noteNumber
        targetAmplitude := velocityToAmplitude velocity
        wavelength := calculate_wavelength (midiNoteToFrequency noteNumber)
        currentOutput := velocityToAmplitude velocity
        timeAtLevelRemaining := calculate_wavelength (midiNoteToFrequency noteNumber) }
        = true := by
      simp [playsNote]
    simp only [hold, hnew, Bool.false_eq_true, if_false, if_true] at hcm
    omega

/-! ## Invariant: at most one active voice per note -/

theorem startNote_preserves_atMostOne (n v : ℤ) (vs : List VoiceState)
    (hInv : ∀ m, countActiveForNote vs m ≤ 1) :
    ∀ m, countActiveForNote (startNote n v vs) m ≤ 1 := by
  intro m
  unfold startNote
  by_cases hm : m = n
  · subst hm
    have h0 : countActiveForNote (deactivateExisting m vs) m = 0 :=
      deactivateExisting_count_self m vs (hInv m)
    have h1 := allocateVoice_count_self_le m v (deactivateExisting m vs)
    omega
  · rw [allocateVoice_count_ne n v m _ hm]
    exact le_trans (deactivateExisting_count_le n m vs) (hInv m)

theorem countActiveForNote_initPool (m : ℤ) :
    countActiveForNote initPool m = 0 := by
  rw [countActiveForNote, List.countP_eq_zero]
  intro u hu
  rw [List.eq_of_mem_replicate hu]
  simp [playsNote, initVoice]

theorem applyOps_atMostOne (ops : List SynthOp) :
    ∀ m, countActiveForNote (applyOps ops initPool) m ≤ 1 := by
  suffices h : ∀ vs, (∀ m, countActiveForNote vs m ≤ 1) →
      ∀ m, countActiveForNote (applyOps ops vs) m ≤ 1 by
    refine h initPool (fun m => ?_)
    rw [countActiveForNote_initPool]
    omega
  induction ops with
  | nil => intro vs h m; simpa [applyOps] using h m
  | cons op ops ih =>
    intro vs h m
    have hstep : ∀ k, countActiveForNote (applySynthOp op vs) k ≤ 1 := by
      cases op with
      | startOp n v => exact startNote_preserves_atMostOne n v vs h
      | stopOp n => exact fun k => le_trans (stopNote_count_le n k vs) (h k)
    simpa [applyOps, applySynthOp] using ih (applySynthOp op vs) hstep m

theorem findFreeVoice_after_deactivate (n : ℤ) (vs : List VoiceState) (i : ℕ)
    (hfind : findVoicePlayingNote vs n = some i) :
    findFreeVoice (deactivateExisting n vs) ≠ none := by
  obtain ⟨hlt, -⟩ := findFirstIdx_some_spec _ vs i hfind
  simp only [deactivateExisting, hfind]
  apply findFirstIdx_ne_none_of_sat _ _ i
  · rw [modifyVoice_length]; exact hlt
  · rw [modifyVoice_getD_self vs i _ hlt]
    simp

theorem findFirstIdx_eq_none_of_countP_zero (p : VoiceState → Bool)
    (vs : List VoiceState) (h : vs.countP p = 0) :
    findFirstIdx p vs = none := by
  rw [findFirstIdx_eq_none_iff]
  intro u hu
  have := List.countP_eq_zero.mp h u hu
  simpa using this

theorem midiNoteToFrequency_pos (n : ℤ) (h : 1 ≤ n) :
    0 < midiNoteToFrequency n := by
  rw [midiNoteToFrequency, if_neg (by omega)]
  positivity

theorem calculate_wavelength_pos {f : ℝ} (h : 0 < f) :
    0 < calculate_wavelength f := by
  simp only [calculate_wavelength, if_neg (not_le.mpr h)]
  split <;> omega

/-! ## Claim C5 -/

/-- Claim C5: after any sequence of startNote/stopNote operations from
the initialized pool, at most one voice is active for any given note
number; and a further noteOn for an already-active note (with
parameters that pass validation) deactivates the existing voice first
and leaves exactly one active voice for that note. -/
theorem atMostOne_voice_per_note :
    (∀ ops : List SynthOp, ∀ m : ℤ,
      countActiveForNote (applyOps ops initPool) m ≤ 1) ∧
    (∀ (vs : List VoiceState) (n v : ℤ),
      (∀ m : ℤ, countActiveForNote vs m ≤ 1) →
      findVoicePlayingNote vs n ≠ none →
      0 < calculate_wavelength (midiNoteToFrequency n) →
      velocityToAmplitude v ≠ 0 →
      countActiveForNote (startNote n v vs) n = 1) := by
  constructor
  · exact applyOps_atMostOne
  · intro vs n v hInv hplaying hwl hamp
    obtain ⟨i, hfind⟩ := Option.ne_none_iff_exists'.mp hplaying
    have h0 : countActiveForNote (deactivateExisting n vs) n = 0 :=
      deactivateExisting_count_self n vs (hInv n)
    have hfree := findFreeVoice_after_deactivate n vs i hfind
    unfold startNote
    rw [allocateVoice_count_self_eq n v _ hfree hwl hamp, h0]

/-- A pool with one active voice for note 60, as produced by an earlier
successful noteOn, used to instantiate the re-trigger scenario. -/
def poolRetrigger : List VoiceState :=
  [{ isActive := true, midiNoteNumber := 60, frequency := 0, targetAmplitude := 12598,
     currentOutput := 12598, wavelength := 50, timeAtLevelRemaining := 49 },
   initVoice]

theorem atMostOne_voice_per_note_witness :
    (∀ m : ℤ, countActiveForNote poolRetrigger m ≤ 1) ∧
    findVoicePlayingNote poolRetrigger 60 ≠ none ∧
    0 < calculate_wavelength (midiNoteToFrequency 60) ∧
    velocityToAmplitude 100 ≠ 0 ∧
    countActiveForNote (startNote 60 100 poolRetrigger) 60 = 1 := by
  have h1 : ∀ m : ℤ, countActiveForNote poolRetrigger m ≤ 1 := by
    intro m
    by_cases h : (60:ℤ) = m <;>
      simp [countActiveForNote, poolRetrigger, playsNote, initVoice, h]
  have h2 : findVoicePlayingNote poolRetrigger 60 ≠ none := by decide
  have h3 : 0 < calculate_wavelength (midiNoteToFrequency 60) :=
    calculate_wavelength_pos (midiNoteToFrequency_pos 60 (by norm_num))
  have h4 : velocityToAmplitude 100 ≠ 0 := by
    norm_num [velocityToAmplitude, roundQ, SYNTH_MAX_NOTE_AMPLITUDE]
  exact ⟨h1, h2, h3, h4,
    atMostOne_voice_per_note.2 poolRetrigger 60 100 h1 h2 h3 h4⟩

/-! ## Claim C4 -/

/-- Claim C4: delivering a note-on event with velocity 0 produces a
pool state identical to delivering a note-off event for the same note
(both run `stopNote`); and afterwards no voice is active for that note
(given the pool invariant that at most one voice is active per note). -/
theorem noteOnZeroVelocity_eq_noteOff (pool : List VoiceState) (n v : ℕ)
    (hInv : ∀ m : ℤ, countActiveForNote pool m ≤ 1) :
    executeMidiEvent 1 n 0 pool = executeMidiEvent 0 n v pool ∧
    findVoicePlayingNote (executeMidiEvent 1 n 0 pool) (n : ℤ) = none := by
  have heq : executeMidiEvent 1 n 0 pool = stopNote (n : ℤ) pool := by
    simp [executeMidiEvent]
  have heq2 : executeMidiEvent 0 n v pool = stopNote (n : ℤ) pool := by
    simp [executeMidiEvent]
  refine ⟨heq.trans heq2.symm, ?_⟩
  rw [heq]
  have h0 := stopNote_count_self (n : ℤ) pool (hInv n)
  exact findFirstIdx_eq_none_of_countP_zero _ _
    (by simpa [countActiveForNote] using h0)

/-- A pool with one active voice for note 7, used to instantiate the
note-on-with-zero-velocity scenario. -/
def poolNoteOff : List VoiceState :=
  [{ isActive := true, midiNoteNumber := 7, frequency := 0, targetAmplitude := 500,
     currentOutput := -500, wavelength := 9, timeAtLevelRemaining := 3 }]

theorem noteOnZeroVelocity_eq_noteOff_witness :
    (∀ m : ℤ, countActiveForNote poolNoteOff m ≤ 1) ∧
    executeMidiEvent 1 7 0 poolNoteOff = executeMidiEvent 0 7 3 poolNoteOff ∧
    findVoicePlayingNote (executeMidiEvent 1 7 0 poolNoteOff) 7 = none := by
  have h1 : ∀ m : ℤ, countActiveForNote poolNoteOff m ≤ 1 := by
    intro m
    by_cases h : (7:ℤ) = m <;>
      simp [countActiveForNote, poolNoteOff, playsNote, h]
  obtain ⟨ha, hb⟩ := noteOnZeroVelocity_eq_noteOff poolNoteOff 7 3 h1
  exact ⟨h1, ha, hb⟩

/-! ## Claim C6 -/

/-- Claim C6: when every slot of the voice pool is active and none of
them plays note `n`, `startNote n v` returns the pool completely
unchanged — the request is dropped without touching any voice slot. -/
theorem startNote_fullPool_noop (vs : List VoiceState) (n v : ℤ)
    (hAll : vs.all (fun u => u.isActive) = true)
    (hNone : vs.all (fun u => !(u.midiNoteNumber == n)) = true) :
    startNote n v vs = vs := by
  have hfp : findVoicePlayingNote vs n = none := by
    rw [findVoicePlayingNote, findFirstIdx_eq_none_iff]
    intro u hu
    have h2 : (!(u.midiNoteNumber == n)) = true := List.all_eq_true.mp hNone u hu
    have h2n : u.midiNoteNumber ≠ n := by simpa using h2
    simp [playsNote, h2n]
  have hff : findFreeVoice vs = none := by
    rw [findFreeVoice, findFirstIdx_eq_none_iff]
    intro u hu
    have h1 : u.isActive = true := List.all_eq_true.mp hAll u hu
    simp [h1]
  unfold startNote
  simp only [deactivateExisting, hfp, allocateVoice, hff]

/-- A fully occupied pool (all `SYNTH_MAX_VOICES` slots active) whose
voices play notes 1 through 8. -/
def fullPool : List VoiceState :=
  [⟨true, 1, 0, 100, 100, 10, 5⟩, ⟨true, 2, 0, 200, -200, 11, 4⟩,
   ⟨true, 3, 0, 300, 300, 12, 3⟩, ⟨true, 4, 0, 400, -400, 13, 2⟩,
   ⟨true, 5, 0, 500, 500, 14, 1⟩, ⟨true, 6, 0, 600, -600, 15, 0⟩,
   ⟨true, 7, 0, 700, 700, 16, 7⟩, ⟨true, 8, 0, 800, -800, 17, 8⟩]

theorem startNote_fullPool_noop_witness :
    fullPool.all (fun u => u.isActive) = true ∧
    fullPool.all (fun u => !(u.midiNoteNumber == 60)) = true ∧
    startNote 60 100 fullPool = fullPool := by
  exact ⟨by decide, by decide,
    startNote_fullPool_noop fullPool 60 100 (by decide) (by decide)⟩

/-! ## Claim C8 -/

/-- Claim C8: for note numbers 1..127, `midiNoteToFrequency` is
strictly monotonically increasing, and `midiNoteToFrequency 69 = 440`
(concert A). The `float` computation is modelled over the exact
reals. -/
theorem midiNoteToFrequency_mono_and_a440 :
    (∀ a b : ℤ, 1 ≤ a → a < b → b ≤ 127 →
      midiNoteToFrequency a < midiNoteToFrequency b) ∧
    midiNoteToFrequency 69 = 440 := by
  constructor
  · intro a b ha hab hb
    rw [midiNoteToFrequency, midiNoteToFrequency,
      if_neg (by omega : ¬ a ≤ 0), if_neg (by omega : ¬ b ≤ 0)]
    have hexp : ((a:ℝ) - 69) / 12 < ((b:ℝ) - 69) / 12 := by
      have hcast : (a:ℝ) < (b:ℝ) := by exact_mod_cast hab
      linarith
    exact mul_lt_mul_of_pos_left
      ((Real.rpow_lt_rpow_left_iff one_lt_two).mpr hexp) (by norm_num)
  · have hz : ((((69:ℤ)):ℝ) - 69) / 12 = 0 := by norm_num
    rw [midiNoteToFrequency, if_neg (by norm_num), hz, Real.rpow_zero]
    norm_num

theorem midiNoteToFrequency_mono_and_a440_witness :
    (1:ℤ) ≤ 69 ∧ (69:ℤ) < 70 ∧ (70:ℤ) ≤ 127 ∧
    midiNoteToFrequency 69 < midiNoteToFrequency 70 ∧
    midiNoteToFrequency 69 = 440 :=
  ⟨by norm_num, by norm_num, by norm_num,
   midiNoteToFrequency_mono_and_a440.1 69 70 (by norm_num) (by norm_num) (by norm_num),
   midiNoteToFrequency_mono_and_a440.2⟩

/-! ## Render-loop lemmas -/

theorem voiceRender_currentOutput (v : VoiceState) :
    (voiceRender v).currentOutput =
      if v.timeAtLevelRemaining = 0 then
        (if v.currentOutput = v.targetAmplitude then -v.targetAmplitude
         else v.targetAmplitude)
      else v.currentOutput := by
  by_cases h0 : v.timeAtLevelRemaining = 0
  · by_cases hw : 0 < v.wavelength
    · simp [voiceRender, h0, hw]
    · simp [voiceRender, h0, hw]
  · have hp : 0 < v.timeAtLevelRemaining := Nat.pos_of_ne_zero h0
    simp [voiceRender, h0, hp]

theorem renderPass_all_inactive (vs : List VoiceState)
    (h : vs.all (fun u => !u.isActive) = true) :
    renderPass vs = (vs, 0, 0) := by
  induction vs with
  | nil => rfl
  | cons v vs ih =>
    simp only [List.all_cons, Bool.and_eq_true] at h
    obtain ⟨hv, hvs⟩ := h
    have hv2 : v.isActive = false := by simpa using hv
    simp [renderPass, ih hvs, hv2]

theorem renderPass_append_inactive (l1 l2 : List VoiceState)
    (h : l1.all (fun u => !u.isActive) = true) :
    renderPass (l1 ++ l2)
      = (l1 ++ (renderPass l2).1, (renderPass l2).2.1, (renderPass l2).2.2) := by
  induction l1 with
  | nil => rfl
  | cons v l1 ih =>
    simp only [List.all_cons, Bool.and_eq_true] at h
    obtain ⟨hv, hl1⟩ := h
    have hv2 : v.isActive = false := by simpa using hv
    simp [renderPass, ih hl1, hv2]

theorem renderPass_active_cons (v : VoiceState) (vs : List VoiceState)
    (hv : v.isActive = true) :
    renderPass (v :: vs)
      = (voiceRender v :: (renderPass vs).1,
         (voiceRender v).currentOutput + (renderPass vs).2.1,
         (renderPass vs).2.2 + 1) := by
  simp [renderPass, hv]

theorem roundQ_intCast (k : ℤ) : roundQ (k : ℚ) = k := by
  have h3 : ⌊(1:ℚ)/2⌋ = 0 := by norm_num
  rw [roundQ]
  split
  · have h2 : ⌊-(k:ℚ) + 1/2⌋ = -k + ⌊(1:ℚ)/2⌋ := by
      rw [← Int.cast_neg]
      exact Int.floor_int_add (-k) (1/2)
    rw [h2, h3]
    omega
  · have h1 : ⌊(k:ℚ) + 1/2⌋ = k + ⌊(1:ℚ)/2⌋ := Int.floor_int_add k (1/2)
    rw [h1, h3, add_zero]

theorem mixSample_one (s : ℤ) (hlo : -32768 ≤ s) (hhi : s ≤ 32767) :
    mixSample s 1 = s := by
  have hmax : ¬ ((SYNTH_MAX_OUTPUT_AMPLITUDE : ℚ) < (s:ℚ) / ((1:ℕ):ℚ)) := by
    rw [SYNTH_MAX_OUTPUT_AMPLITUDE]
    push_cast
    rw [div_one]
    exact_mod_cast not_lt.mpr hhi
  have hmin : ¬ ((s:ℚ) / ((1:ℕ):ℚ) < (SYNTH_MIN_OUTPUT_AMPLITUDE : ℚ)) := by
    rw [SYNTH_MIN_OUTPUT_AMPLITUDE]
    push_cast
    rw [div_one]
    exact_mod_cast not_lt.mpr hlo
  simp only [mixSample, if_pos (by norm_num : (0:ℕ) < 1), if_neg hmax, if_neg hmin]
  rw [Nat.cast_one, div_one, roundQ_intCast]

/-! ## Claim C3 -/

/-- Claim C3: with zero active voices the render loop emits exactly 0;
with exactly one active voice whose output values are inside the
`int16_t` range, the emitted sample equals that voice's (freshly
updated) `currentOutput` — the divisor is 1 and the clamp is inert.
Moreover `velocityToAmplitude` never exceeds the configured per-voice
maximum. -/
theorem renderStep_silence_and_single :
    (∀ vs : List VoiceState, vs.all (fun u => !u.isActive) = true →
      (renderStep vs).2 = 0) ∧
    (∀ (l1 l2 : List VoiceState) (v : VoiceState),
      l1.all (fun u => !u.isActive) = true →
      l2.all (fun u => !u.isActive) = true →
      v.isActive = true →
      -32768 ≤ v.currentOutput → v.currentOutput ≤ 32767 →
      -32767 ≤ v.targetAmplitude → v.targetAmplitude ≤ 32767 →
      (renderStep (l1 ++ v :: l2)).2 = (voiceRender v).currentOutput) ∧
    (∀ w : ℤ, 0 ≤ velocityToAmplitude w ∧
      velocityToAmplitude w ≤ SYNTH_MAX_NOTE_AMPLITUDE) := by
  refine ⟨?_, ?_, ?_⟩
  · intro vs h
    rw [renderStep, renderPass_all_inactive vs h]
    rfl
  · intro l1 l2 v h1 h2 hv hlo hhi halo hahi
    have hb : -32768 ≤ (voiceRender v).currentOutput ∧
        (voiceRender v).currentOutput ≤ 32767 := by
      rw [voiceRender_currentOutput]
      constructor
      · split
        · split <;> omega
        · omega
      · split
        · split <;> omega
        · omega
    rw [renderStep, renderPass_append_inactive l1 (v :: l2) h1,
      renderPass_active_cons v l2 hv, renderPass_all_inactive l2 h2]
    simp only [add_zero, Nat.zero_add]
    exact mixSample_one _ hb.1 hb.2
  · intro w
    have h0 : (0:ℚ) ≤ max 0 (min (w:ℚ) 127) := le_max_left _ _
    have hq0 : (0:ℚ) ≤ max 0 (min (w:ℚ) 127) / 127 * 16000 :=
      mul_nonneg (div_nonneg h0 (by norm_num)) (by norm_num)
    have hq127 : max 0 (min (w:ℚ) 127) ≤ 127 :=
      max_le (by norm_num) (min_le_right _ _)
    have hq1 : max 0 (min (w:ℚ) 127) / 127 * 16000 ≤ 16000 := by
      have h1 : max 0 (min (w:ℚ) 127) / 127 ≤ 1 :=
        (div_le_one (by norm_num)).mpr hq127
      calc max 0 (min (w:ℚ) 127) / 127 * 16000 ≤ 1 * 16000 :=
            mul_le_mul_of_nonneg_right h1 (by norm_num)
        _ = 16000 := one_mul _
    constructor
    · unfold velocityToAmplitude SYNTH_MAX_NOTE_AMPLITUDE roundQ
      push_cast
      rw [if_neg (not_lt.mpr hq0), Int.le_floor, Int.cast_zero]
      linarith
    · unfold velocityToAmplitude SYNTH_MAX_NOTE_AMPLITUDE roundQ
      push_cast
      rw [if_neg (not_lt.mpr hq0)]
      have hfl : ⌊max 0 (min (w:ℚ) 127) / 127 * 16000 + 1/2⌋
          ≤ ⌊(16000:ℚ) + 1/2⌋ := Int.floor_le_floor (by linarith)
      have h2 : ⌊(16000:ℚ) + 1/2⌋ = 16000 := by norm_num
      omega

/-- One active voice between two inactive ones, for the single-voice
mixing scenario. -/
def voiceSingle : VoiceState :=
  ⟨true, 64, 0, 100, -100, 3, 0⟩

/-- A pool of two inactive voices, for the silence scenario. -/
def poolSilent : List VoiceState := [initVoice, initVoice]

theorem renderStep_silence_and_single_witness :
    (poolSilent.all (fun u => !u.isActive) = true ∧
      (renderStep poolSilent).2 = 0) ∧
    (voiceSingle.isActive = true ∧
      (renderStep ([initVoice] ++ voiceSingle :: [initVoice])).2
        = (voiceRender voiceSingle).currentOutput) := by
  constructor
  · exact ⟨by decide, renderStep_silence_and_single.1 poolSilent (by decide)⟩
  · exact ⟨rfl, renderStep_silence_and_single.2.1 [initVoice] [initVoice] voiceSingle
      (by decide) (by decide) rfl (by decide) (by decide) (by decide) (by decide)⟩

/-! ## Claim C1 -/

theorem renderPass_fst_map (vs : List VoiceState) :
    (renderPass vs).1 = vs.map (fun u => if u.isActive then voiceRender u else u) := by
  induction vs with
  | nil => rfl
  | cons v vs ih =>
    by_cases hv : v.isActive
    · simp [renderPass, hv, ih]
    · simp [renderPass, hv, ih]

/-- Claim C1 (amended): in each render iteration every active voice is
advanced by `voiceRender` (inactive voices untouched), and when the
toggle countdown has reached zero the output flips and the countdown
is reset to `wavelength` and then decremented in the same iteration,
ending at `wavelength - 1`; when the countdown is positive it is
simply decremented by one. -/
theorem renderLoop_toggle_and_decrement :
    (∀ v : VoiceState,
      voiceRender v =
        if v.timeAtLevelRemaining = 0 then
          { v with
            currentOutput :=
              if v.currentOutput = v.targetAmplitude then -v.targetAmplitude
              else v.targetAmplitude
            timeAtLevelRemaining := v.wavelength - 1 }
        else { v with timeAtLevelRemaining := v.timeAtLevelRemaining - 1 }) ∧
    (∀ vs : List VoiceState,
      (renderStep vs).1
        = vs.map (fun u => if u.isActive then voiceRender u else u)) := by
  constructor
  · intro v
    by_cases h0 : v.timeAtLevelRemaining = 0
    · by_cases hw : 0 < v.wavelength
      · simp [voiceRender, h0, hw]
      · have hw0 : v.wavelength = 0 := by omega
        simp [voiceRender, h0, hw0]
    · have hp : 0 < v.timeAtLevelRemaining := Nat.pos_of_ne_zero h0
      simp [voiceRender, h0, hp]
  · intro vs
    simp only [renderStep]
    exact renderPass_fst_map vs

/-- The per-voice render step exactly as claim C1 words it: when the
countdown has reached zero the output flips and the countdown is reset
to `halfPeriodSamples` (`wavelength`), with nothing else happening
that iteration; otherwise the countdown is decremented. Written from
the claim, to compare against the embedded `voiceRender`. -/
def claimToggleStep (v : VoiceState) : VoiceState :=
  if v.timeAtLevelRemaining = 0 then
    { v with
      currentOutput :=
        if v.currentOutput = v.targetAmplitude then -v.targetAmplitude
        else v.targetAmplitude
      timeAtLevelRemaining := v.wavelength }
  else { v with timeAtLevelRemaining := v.timeAtLevelRemaining - 1 }

/-- An active voice whose toggle countdown has just reached zero, with
`halfPeriodSamples` (wavelength) 4. -/
def voiceToggleC1 : VoiceState := ⟨true, 60, 0, 100, 100, 4, 0⟩

/-- Claim C1 counterexample: on a toggle iteration the code leaves the
countdown at `wavelength - 1 = 3`, not at `wavelength = 4` as the
claim states, because the reset is followed by the decrement in the
same iteration. -/
theorem renderLoop_toggle_counterexample :
    voiceToggleC1.isActive = true ∧
    voiceToggleC1.timeAtLevelRemaining = 0 ∧
    voiceToggleC1.wavelength = 4 ∧
    ((renderStep [voiceToggleC1]).1.getD 0 initVoice).timeAtLevelRemaining = 3 ∧
    (claimToggleStep voiceToggleC1).timeAtLevelRemaining = 4 ∧
    ((renderStep [voiceToggleC1]).1.getD 0 initVoice).timeAtLevelRemaining
      ≠ (claimToggleStep voiceToggleC1).timeAtLevelRemaining :=
  ⟨rfl, rfl, rfl, rfl, rfl, by decide⟩

/-! ## Claim C9 -/

/-- Claim C9 (amended): `stopNote` (note-off) immediately zeroes the
deactivated voice's `currentOutput`; the other deactivation paths
(re-trigger, invalid-parameter rejection) leave `currentOutput`
unchanged, but an inactive voice is skipped by the mixer, so a
deactivated voice contributes silence on the very next mix
regardless. -/
theorem stopNote_zeroes_output (n : ℤ) (vs : List VoiceState) (i : ℕ)
    (w : VoiceState)
    (hfind : findVoicePlayingNote vs n = some i)
    (hw : w.isActive = false) :
    ((stopNote n vs).getD i initVoice).isActive = false ∧
    ((stopNote n vs).getD i initVoice).currentOutput = 0 ∧
    (renderStep (w :: vs)).2 = (renderStep vs).2 := by
  obtain ⟨hlt, -⟩ := findFirstIdx_some_spec _ vs i hfind
  refine ⟨?_, ?_, ?_⟩
  · simp only [stopNote, hfind]
    rw [modifyVoice_getD_self vs i _ hlt]
  · simp only [stopNote, hfind]
    rw [modifyVoice_getD_self vs i _ hlt]
  · simp [renderStep, renderPass, hw]

/-- A pool with one active voice playing note 5, with nonzero
output. -/
def poolStopC9 : List VoiceState := [⟨true, 5, 0, 300, 77, 6, 2⟩]

theorem stopNote_zeroes_output_witness :
    findVoicePlayingNote poolStopC9 5 = some 0 ∧
    initVoice.isActive = false ∧
    ((stopNote 5 poolStopC9).getD 0 initVoice).isActive = false ∧
    ((stopNote 5 poolStopC9).getD 0 initVoice).currentOutput = 0 ∧
    (renderStep (initVoice :: poolStopC9)).2 = (renderStep poolStopC9).2 := by
  obtain ⟨h1, h2, h3⟩ := stopNote_zeroes_output 5 poolStopC9 0 initVoice (by decide) rfl
  exact ⟨by decide, rfl, h1, h2, h3⟩

/-- Pool for the C9 counterexample: slot 0 is free but holds a stale
nonzero output; slot 1 is active, playing note 0 with output 100. -/
def poolC9 : List VoiceState :=
  [⟨false, 3, 0, 200, 55, 7, 1⟩, ⟨true, 0, 0, 100, 100, 4, 2⟩]

/-- Claim C9 counterexample: `startNote 0 50` deactivates the voice
playing note 0 (re-trigger path) without zeroing its output, and then
rejects the invalid allocation (note 0 gives frequency 0) leaving the
claimed slot deactivated with its stale output 55 — both deactivated
voices keep a nonzero `currentOutput`, contradicting the claim that
every deactivation immediately zeroes the output. -/
theorem stopNote_zeroes_counterexample :
    (poolC9.getD 1 initVoice).isActive = true ∧
    ((startNote 0 50 poolC9).getD 1 initVoice).isActive = false ∧
    ((startNote 0 50 poolC9).getD 1 initVoice).currentOutput = 100 ∧
    ((startNote 0 50 poolC9).getD 1 initVoice).currentOutput ≠ 0 ∧
    ((startNote 0 50 poolC9).getD 0 initVoice).isActive = false ∧
    ((startNote 0 50 poolC9).getD 0 initVoice).currentOutput = 55 ∧
    ((startNote 0 50 poolC9).getD 0 initVoice).currentOutput ≠ 0 := by
  have hfreq : midiNoteToFrequency 0 = 0 := by simp [midiNoteToFrequency]
  have hwl : calculate_wavelength (midiNoteToFrequency 0) = 0 := by
    rw [hfreq, calculate_wavelength, if_pos le_rfl]
  have hfind : findVoicePlayingNote poolC9 0 = some 1 := by decide
  have hde : deactivateExisting 0 poolC9
      = [⟨false, 3, 0, 200, 55, 7, 1⟩, ⟨false, 0, 0, 100, 100, 4, 2⟩] := by
    simp only [deactivateExisting, hfind]
    rfl
  have hff : findFreeVoice (deactivateExisting 0 poolC9) = some 0 := by
    rw [hde]; decide
  have hcond : ¬ (0 < calculate_wavelength (midiNoteToFrequency 0) ∧
      velocityToAmplitude 50 ≠ 0) := by
    rw [hwl]; simp
  have halloc : startNote 0 50 poolC9
      = modifyVoice (deactivateExisting 0 poolC9) 0 (fun v =>
          { v with
            isActive := false
            midiNoteNumber := 0
            frequency := midiNoteToFrequency 0
            targetAmplitude := velocityToAmplitude 50
            wavelength := calculate_wavelength (midiNoteToFrequency 0) }) := by
    simp only [startNote, allocateVoice, hff, if_neg hcond]
  refine ⟨rfl, ?_, ?_, ?_, ?_, ?_, ?_⟩ <;> rw [halloc, hde] <;> first
    | rfl
    | decide

/-! ## Claim C2 -/

/-- Claim C2 (amended): a null song reference makes `loadSong` fail
with the whole session state unchanged; a failure due to a null data
pointer or a zero event count returns false with the data pointer
forced to null, the event count forced to zero and the tempo
overwritten by the failed song's value, while millis-per-tick, the
event index and the is-playing flag keep their prior values. -/
theorem loadSong_failure_state (st : MidiPlayerState) (info : SongInfo)
    (h : info.midi_data_ptr = none ∨ info.event_count = 0) :
    loadSong none st = (false, st) ∧
    loadSong (some info) st
      = (false, { st with
          current_song_data_ptr := none
          current_event_count := 0
          current_bpm := info.bpm }) := by
  refine ⟨rfl, ?_⟩
  simp only [loadSong]
  rw [if_pos (by simpa using h)]

/-- A session that had successfully loaded a song (tempo 100). -/
def prevStateC2 : MidiPlayerState :=
  { current_song_data_ptr := some [0, 1, 0, 60, 100, 0]
    current_event_count := 1
    current_bpm := 100
    is_playing := false
    current_event_index := 0
    next_event_time_ms := 0
    millis_per_tick := 5 }

/-- A song record with a null event-data pointer and tempo 77. -/
def badSongC2 : SongInfo :=
  { midi_data_ptr := none, event_count := 5, bpm := 77 }

/-- Claim C2 counterexample: loading a song with a null data pointer
over a previously loaded session returns false but leaves the tempo at
the failed song's 77 (it was 100 before the call) and clears the data
pointer and event count — they do not keep their pre-call values. -/
theorem loadSong_failure_counterexample :
    (loadSong (some badSongC2) prevStateC2).1 = false ∧
    (loadSong (some badSongC2) prevStateC2).2.current_bpm = 77 ∧
    prevStateC2.current_bpm = 100 ∧
    (loadSong (some badSongC2) prevStateC2).2.current_bpm
      ≠ prevStateC2.current_bpm ∧
    (loadSong (some badSongC2) prevStateC2).2.current_song_data_ptr
      ≠ prevStateC2.current_song_data_ptr ∧
    (loadSong (some badSongC2) prevStateC2).2.current_event_count
      ≠ prevStateC2.current_event_count := by
  refine ⟨rfl, rfl, rfl, ?_, ?_, ?_⟩ <;> decide

theorem loadSong_failure_state_witness :
    (badSongC2.midi_data_ptr = none ∨ badSongC2.event_count = 0) ∧
    loadSong none prevStateC2 = (false, prevStateC2) ∧
    loadSong (some badSongC2) prevStateC2
      = (false, { prevStateC2 with
          current_song_data_ptr := none
          current_event_count := 0
          current_bpm := badSongC2.bpm }) := by
  obtain ⟨h1, h2⟩ := loadSong_failure_state prevStateC2 badSongC2 (Or.inl rfl)
  exact ⟨Or.inl rfl, h1, h2⟩

/-! ## Claim C7 -/

/-- Claim C7: `millis_per_tick` equals
`(60000 / bpm) / TICKS_PER_QUARTER_NOTE` with a non-positive bpm
replaced by 120; and whenever the scheduler processes an event with at
least one event remaining, the new deadline is the wall-clock time at
which the current event was processed plus
`round(nextDeltaTicks * millis_per_tick)`. -/
theorem timing_factors_and_reschedule :
    (∀ bpm : ℚ, calculateTimingFactors bpm
      = (60000 / (if bpm ≤ 0 then 120 else bpm)) / (TICKS_PER_QUARTER_NOTE : ℚ)) ∧
    (∀ (now : ℕ) (st : MidiPlayerState) (pool : List VoiceState),
      st.is_playing = true →
      st.next_event_time_ms ≤ now →
      st.current_event_index < st.current_event_count →
      st.current_event_index + 1 < st.current_event_count →
      (update now st pool).2.1.next_event_time_ms
        = now + (roundQ
            (((pgm_read_uint16_big_endian (st.current_song_data_ptr.getD [])
                ((st.current_event_index + 1) * BYTES_PER_EVENT) : ℕ) : ℚ)
              * st.millis_per_tick)).toNat) := by
  constructor
  · intro bpm
    simp only [calculateTimingFactors]
    rw [if_pos (by norm_num [TICKS_PER_QUARTER_NOTE])]
    by_cases h : bpm ≤ 0
    · rw [if_pos h]
      norm_num [TICKS_PER_QUARTER_NOTE]
    · rw [if_neg h]
      have hb : bpm ≠ 0 := fun h0 => h (le_of_eq h0)
      rw [TICKS_PER_QUARTER_NOTE]
      push_cast
      field_simp
      ring
  · intro now st pool h1 h2 h3 h4
    have hnp : ¬ (st.is_playing = false) := by simp [h1]
    have hend : ¬ (st.current_event_count ≤ st.current_event_index) := by omega
    simp only [update, if_neg hnp, if_pos h2, if_neg hend]
    simp only [scheduleNextEvent]
    rw [if_pos (by simpa using h4)]
    simp [convertTicksToMillis]

/-- A playing session for the rescheduling scenario: tempo 120 BPM, 2
events, the second with big-endian delta-time 96 ticks. -/
def songStC7 : MidiPlayerState :=
  { current_song_data_ptr := some [0, 0, 0, 60, 100, 0, 0, 96, 0, 60, 0, 0]
    current_event_count := 2
    current_bpm := 120
    is_playing := true
    current_event_index := 0
    next_event_time_ms := 5
    millis_per_tick := 125/24 }

theorem timing_factors_and_reschedule_witness :
    calculateTimingFactors 120
      = (60000 / (if (120:ℚ) ≤ 0 then 120 else 120)) / (TICKS_PER_QUARTER_NOTE : ℚ) ∧
    songStC7.is_playing = true ∧
    songStC7.next_event_time_ms ≤ 10 ∧
    songStC7.current_event_index < songStC7.current_event_count ∧
    songStC7.current_event_index + 1 < songStC7.current_event_count ∧
    (update 10 songStC7 []).2.1.next_event_time_ms
      = 10 + (roundQ
          (((pgm_read_uint16_big_endian (songStC7.current_song_data_ptr.getD [])
              ((songStC7.current_event_index + 1) * BYTES_PER_EVENT) : ℕ) : ℚ)
            * songStC7.millis_per_tick)).toNat :=
  ⟨timing_factors_and_reschedule.1 120, rfl, by decide, by decide, by decide,
   timing_factors_and_reschedule.2 10 songStC7 [] rfl (by decide) (by decide) (by decide)⟩

/-! ## Claim C10 -/

/-- Claim C10: when the event at the current index has a kind byte that
is neither 0 nor 1, processing it makes no call into the synthesizer
(the voice pool is returned unchanged), yet the scheduler still
advances the event index by one, still reports playing, and still
schedules the next deadline from the following event's delta-time. -/
theorem unknown_event_skipped (now : ℕ) (st : MidiPlayerState)
    (pool : List VoiceState) (k : ℕ)
    (h1 : st.is_playing = true)
    (h2 : st.next_event_time_ms ≤ now)
    (h3 : st.current_event_index < st.current_event_count)
    (hk : pgm_read_byte (st.current_song_data_ptr.getD [])
        (st.current_event_index * BYTES_PER_EVENT + 2) = k)
    (hk0 : k ≠ 0) (hk1 : k ≠ 1) :
    (update now st pool).2.2 = pool ∧
    (update now st pool).2.1.current_event_index = st.current_event_index + 1 ∧
    (update now st pool).1 = true ∧
    (st.current_event_index + 1 < st.current_event_count →
      (update now st pool).2.1.next_event_time_ms
        = now + convertTicksToMillis st.millis_per_tick
            (pgm_read_uint16_big_endian (st.current_song_data_ptr.getD [])
              ((st.current_event_index + 1) * BYTES_PER_EVENT))) := by
  have hnp : ¬ (st.is_playing = false) := by simp [h1]
  have hend : ¬ (st.current_event_count ≤ st.current_event_index) := by omega
  have hproc : processCurrentEvent st pool = pool := by
    simp only [processCurrentEvent, executeMidiEvent, hk]
    rw [if_neg hk1, if_neg hk0]
  refine ⟨?_, ?_, ?_, ?_⟩
  · simp only [update, if_neg hnp, if_pos h2, if_neg hend]
    exact hproc
  · simp only [update, if_neg hnp, if_pos h2, if_neg hend, scheduleNextEvent]
    split
    · rfl
    · rfl
  · simp only [update, if_neg hnp, if_pos h2, if_neg hend, scheduleNextEvent]
    split
    · exact h1
    · exact h1
  · intro h4
    simp only [update, if_neg hnp, if_pos h2, if_neg hend, scheduleNextEvent]
    rw [if_pos (by simpa using h4)]

/-- A playing session whose current event has the unknown kind byte 7;
a second event (kind 1) follows with delta-time 50. -/
def songStC10 : MidiPlayerState :=
  { current_song_data_ptr := some [0, 0, 7, 60, 100, 0, 0, 50, 1, 62, 90, 0]
    current_event_count := 2
    current_bpm := 120
    is_playing := true
    current_event_index := 0
    next_event_time_ms := 3
    millis_per_tick := 5 }

theorem unknown_event_skipped_witness :
    songStC10.is_playing = true ∧
    songStC10.next_event_time_ms ≤ 9 ∧
    songStC10.current_event_index < songStC10.current_event_count ∧
    pgm_read_byte (songStC10.current_song_data_ptr.getD [])
      (songStC10.current_event_index * BYTES_PER_EVENT + 2) = 7 ∧
    (7:ℕ) ≠ 0 ∧ (7:ℕ) ≠ 1 ∧
    (update 9 songStC10 initPool).2.2 = initPool ∧
    (update 9 songStC10 initPool).2.1.current_event_index
      = songStC10.current_event_index + 1 ∧
    (update 9 songStC10 initPool).1 = true ∧
    (update 9 songStC10 initPool).2.1.next_event_time_ms
      = 9 + convertTicksToMillis songStC10.millis_per_tick
          (pgm_read_uint16_big_endian (songStC10.current_song_data_ptr.getD [])
            ((songStC10.current_event_index + 1) * BYTES_PER_EVENT)) := by
  obtain ⟨ha, hb, hc, hd⟩ := unknown_event_skipped 9 songStC10 initPool 7
    rfl (by decide) (by decide) (by decide) (by decide) (by decide)
  exact ⟨rfl, by decide, by decide, by decide, by decide, by decide,
    ha, hb, hc, hd (by decide)⟩
